import Mathlib

/-!
Verification development for the `diffsync-mock` repository.

The repository wires two DiffSync adapters (a file-backed `LocalAdapter`
and a storeless `RedisAdapter`) to the generic diff-and-sync engine of the
`diffsync` library.  The definitions below are a shallow embedding of the
repository's Python code: records, the adapter index, `LocalAdapter.load`,
the Redis-backed CRUD of `RedisEmployee` / `RedisAdapter`, the key layout
written by `build.populate_redis`, and the CLI of `main.py`.  Parts of the
`diffsync` library itself (the diff algorithm, the base datastore `add`,
and the sync executor) are not part of this repository; where a claim needs
them they are modelled from the specification and marked as such.
-/

namespace DiffsyncMock

/-- A raw employee mapping as read from the JSON source: every field may be
absent (a Python dict lookup of an absent field raises `KeyError`). -/
structure RawEmp where
  name : Option String
  company : Option String
  job : Option String
  ssn : Option String
  residence : Option String
  username : Option String
  mail : Option String
deriving DecidableEq, Repr

/-- The `Employee` model of `models.py`: identifier `username`, attributes
`company, job, ssn, residence, name, mail`. -/
structure Employee where
  name : String
  company : String
  job : String
  ssn : String
  residence : String
  username : String
  mail : String
deriving DecidableEq, Repr

/-- Python-level failure outcomes observed in this code base. -/
inductive PyErr where
  | keyError (field : String)
  | alreadyExists (key : String)
  | notFound (keys : List String)
  | typeError
  | dataError
  | wrongType
deriving DecidableEq, Repr

/-- A Redis hash: field name to value, as returned by `HGETALL`. -/
abbrev Hash := List (String × String)

/-- Field lookup in a hash (Python `obj[field]` on the decoded dict). -/
def hashGet (h : Hash) (f : String) : Option String :=
  (h.find? (fun p => p.1 == f)).map (fun p => p.2)

/-- A value held at a Redis key: either a hash (what `HSET` writes) or a
plain string. -/
inductive RedisVal where
  | hash (h : Hash)
  | str (s : String)
deriving DecidableEq, Repr

/-- The state of the Redis database: an association of keys to values. -/
abbrev RedisStore := List (String × RedisVal)

/-- Look a key up in the Redis database. -/
def redisLookup (rs : RedisStore) (k : String) : Option RedisVal :=
  (rs.find? (fun p => p.1 == k)).map (fun p => p.2)

/-- Redis `HGETALL key`: the stored hash, the empty hash when the key is
absent, and a `WRONGTYPE` error when the key holds a non-hash value. -/
def hgetall (rs : RedisStore) (k : String) : Except PyErr Hash :=
  match redisLookup rs k with
  | none => .ok []
  | some (.hash h) => .ok h
  | some (.str _) => .error .wrongType

/-- Redis `MGET keys`: for every key that does not exist or does not hold a
string value, `nil` (here `none`) is returned; `MGET` never fails. -/
def mget (rs : RedisStore) (ks : List String) : List (Option String) :=
  ks.map (fun k =>
    match redisLookup rs k with
    | some (.str s) => some s
    | _ => none)

/-- The redis-py client rejects `hgetall(None)` with a `DataError` before
anything is sent to the server; `RedisEmployee.get_by_uids` feeds it the
elements of an `MGET` reply, which may be `nil`. -/
def hgetallOptKey (rs : RedisStore) : Option String → Except PyErr Hash
  | none => .error .dataError
  | some k => hgetall rs k

/-- Python keyword-argument evaluation of a required dict field: a missing
field raises `KeyError field`. -/
def reqField (f : String) (v : Option String) : Except PyErr String :=
  match v with
  | none => .error (.keyError f)
  | some s => .ok s

/-- The `RedisEmployee.convert_from` classmethod (redis_adapter.py lines
75-87): builds an `Employee` from a decoded hash, reading the fields in the
order they appear in the call (`name`, `company`, `job`, `ssn`,
`residence`, `username`, `mail`); a field absent from the hash raises
`KeyError` on that field. -/
def convertFrom (h : Hash) : Except PyErr Employee := do
  let n ← reqField "name" (hashGet h "name")
  let c ← reqField "company" (hashGet h "company")
  let j ← reqField "job" (hashGet h "job")
  let s ← reqField "ssn" (hashGet h "ssn")
  let r ← reqField "residence" (hashGet h "residence")
  let u ← reqField "username" (hashGet h "username")
  let m ← reqField "mail" (hashGet h "mail")
  return { name := n, company := c, job := j, ssn := s, residence := r,
           username := u, mail := m }

/-- The `RedisEmployee.get` classmethod (redis_adapter.py lines 108-118)
for a string identifier: `convert_from(redis.hgetall(identifier))`. -/
def redisEmployeeGet (rs : RedisStore) (identifier : String) :
    Except PyErr Employee := do
  convertFrom (← hgetall rs identifier)

/-- The `RedisEmployee.get_by_uids` classmethod (redis_adapter.py lines
100-106): iterates over `redis.mget(uids)` — which yields the *values* of
the `MGET` reply — and calls `convert_from(redis.hgetall(value))` on each. -/
def redisGetByUidsLoop (rs : RedisStore) :
    List (Option String) → Except PyErr (List Employee)
  | [] => .ok []
  | v :: rest => do
    let h ← hgetallOptKey rs v
    let emp ← convertFrom h
    let tail ← redisGetByUidsLoop rs rest
    return emp :: tail

/-- The full `get_by_uids` path: `RedisAdapter.get_by_uids` (lines 181-198)
passes straight through to `RedisEmployee.get_by_uids`. -/
def redisGetByUids (rs : RedisStore) (uids : List String) :
    Except PyErr (List Employee) :=
  redisGetByUidsLoop rs (mget rs uids)

/-- The internal DiffSync datastore index of one adapter, for the single
record type `employee`: identifier key to record. -/
abbrev Store := List (String × Employee)

/-- Keys of a store, in insertion order. -/
def storeKeys (s : Store) : List String := s.map (fun p => p.1)

/-- The `RedisAdapter.add` method (redis_adapter.py lines 200-209): its
body is `pass` — it never touches any index and never fails. -/
def redisAdapterAdd (s : Store) (_e : Employee) : Except PyErr Store :=
  .ok s

/-- Modelled from the spec: the base DiffSync datastore `add` (the
`diffsync` library is not part of this repository) — "`add(Record) ->
void`: fails with `AlreadyExists` if the identifier key is already
indexed"; otherwise the record is appended to the index. -/
def storeAdd (s : Store) (e : Employee) : Except PyErr Store :=
  if s.any (fun p => p.1 == e.username) then .error (.alreadyExists e.username)
  else .ok (s ++ [(e.username, e)])

/-- One step of `LocalAdapter.load` (local_adapter.py lines 23-34): the
`Employee(...)` constructor call for the record at position `index`, with
the keyword arguments evaluated in source order (`name`, `company`, `job`,
`ssn`, `residence`, `username`, `mail`); a field absent from the source
mapping raises `KeyError`, and the stored `username` is the source
username with the decimal position appended (the f-string
`username + str(index)`). -/
def mkEmployee (index : Nat) (e : RawEmp) : Except PyErr Employee :=
  match e.name with
  | none => .error (.keyError "name")
  | some n =>
  match e.company with
  | none => .error (.keyError "company")
  | some c =>
  match e.job with
  | none => .error (.keyError "job")
  | some j =>
  match e.ssn with
  | none => .error (.keyError "ssn")
  | some s =>
  match e.residence with
  | none => .error (.keyError "residence")
  | some r =>
  match e.username with
  | none => .error (.keyError "username")
  | some u =>
  match e.mail with
  | none => .error (.keyError "mail")
  | some m =>
    .ok { name := n, company := c, job := j, ssn := s, residence := r,
          username := u ++ Nat.repr index, mail := m }

/-- The loop of `LocalAdapter.load`: for each record, build the `Employee`
and `self.add` it.  The Python loop mutates the live adapter, so when a
record raises, the additions already performed stay in the index; the
model returns the index in that exact state, paired with the error if one
occurred. -/
def loadAux (index : Nat) (s : Store) : List RawEmp → Store × Option PyErr
  | [] => (s, none)
  | e :: rest =>
    match mkEmployee index e with
    | .error err => (s, some err)
    | .ok emp =>
      match storeAdd s emp with
      | .error err => (s, some err)
      | .ok s2 => loadAux (index + 1) s2 rest

/-- `LocalAdapter.load(employees)` on a freshly constructed adapter (the
empty index), as `main.py` calls it. -/
def localLoad (es : List RawEmp) : Store × Option PyErr :=
  loadAux 0 [] es

/-- The attribute set of an employee, in the `_attributes` order of
`models.py`. -/
def attrsOf (e : Employee) : Hash :=
  [("company", e.company), ("job", e.job), ("ssn", e.ssn),
   ("residence", e.residence), ("name", e.name), ("mail", e.mail)]

/-- Attribute-by-attribute comparison of a source and a target employee:
the changed attributes with their (old value, new value) pairs, following
spec section 4.2 step 4. -/
def attrDiffs (src tgt : Employee) : List (String × String × String) :=
  (List.zip (attrsOf tgt) (attrsOf src)).filterMap
    (fun p => if p.1.2 == p.2.2 then none else some (p.1.1, p.1.2, p.2.2))

/-- A Delta for the single top-level record type `employee`: disjoint
creates / updates / deletes keyed by identifier. -/
structure Delta where
  creates : List (String × Hash)
  updates : List (String × List (String × String × String))
  deletes : List String
deriving DecidableEq, Repr

/-- Exact lookup by identifier key in a store index. -/
def storeGet (s : Store) (k : String) : Option Employee :=
  (s.find? (fun p => p.1 == k)).map (fun p => p.2)

/-- Modelled from the spec: the Diff Engine of the `diffsync` library (not
part of this repository), per spec section 4.2 — `to_create = S - T` with
the full attribute set as payload, `to_delete = T - S` with no payload,
`to_update = S shared with T` keeping an entry only when some attribute
differs. -/
def diffStores (src tgt : Store) : Delta :=
  { creates := (src.filter (fun p => !(tgt.any (fun q => q.1 == p.1)))).map
      (fun p => (p.1, attrsOf p.2)),
    updates := src.filterMap (fun p =>
      match storeGet tgt p.1 with
      | none => none
      | some t =>
        let ds := attrDiffs p.2 t
        if ds.isEmpty then none else some (p.1, ds)),
    deletes := (tgt.filter (fun p => !(src.any (fun q => q.1 == p.1)))).map
      (fun p => p.1) }

/-- The per-type counts printed by `diff.summary()` in `main.py`:
(creates, updates, deletes). -/
def summaryCounts (d : Delta) : Nat × Nat × Nat :=
  (d.creates.length, d.updates.length, d.deletes.length)

/-- The hash written by `build.populate_redis` for one source item at a
given position: the item with its `username` field overwritten by the
suffixed key before `HSET` stores it.  Fields absent from the item are
simply absent from the hash. -/
def redisHashOfRaw (index : Nat) (e : RawEmp) : Hash :=
  (match e.job with | none => [] | some v => [("job", v)]) ++
  (match e.company with | none => [] | some v => [("company", v)]) ++
  (match e.ssn with | none => [] | some v => [("ssn", v)]) ++
  (match e.residence with | none => [] | some v => [("residence", v)]) ++
  [("username", (e.username.getD "") ++ Nat.repr index)] ++
  (match e.name with | none => [] | some v => [("name", v)]) ++
  (match e.mail with | none => [] | some v => [("mail", v)])

/-- The loop of `build.populate_redis` (build.py lines 46-49): for every
item, `item["username"] = item["username"] + str(index)` and then
`redis.hset(item["username"], ..., item)`; reading `item["username"]` of
an item without the field raises `KeyError`. -/
def populateRedisAux (index : Nat) (rs : RedisStore) :
    List RawEmp → Except PyErr RedisStore
  | [] => .ok rs
  | e :: rest =>
    match e.username with
    | none => .error (.keyError "username")
    | some u =>
      populateRedisAux (index + 1)
        (rs ++ [((u ++ Nat.repr index), .hash (redisHashOfRaw index e))]) rest

/-- `build.populate_redis` starts from a flushed (empty) database. -/
def populateRedisStore (es : List RawEmp) : Except PyErr RedisStore :=
  populateRedisAux 0 [] es

/-- The identifier keys that both `LocalAdapter.load` and `populate_redis`
derive from a source list: the username of the record at position `i` with
the decimal representation of `i` appended. -/
def suffixedKeys (es : List RawEmp) : List String :=
  es.enum.map (fun p => (p.2.username.getD "") ++ Nat.repr p.1)

/-- Redis `HSET key mapping`: sets the given hash fields at `key`,
creating the hash when absent; fails with `WRONGTYPE` on a string key. -/
def redisHset (rs : RedisStore) (k : String) (h : Hash) :
    Except PyErr RedisStore :=
  match redisLookup rs k with
  | none => .ok (rs ++ [(k, .hash h)])
  | some (.str _) => .error .wrongType
  | some (.hash old) =>
    .ok (rs.map (fun p =>
      if p.1 == k
      then (p.1, .hash (old.filter (fun q => !(h.any (fun q2 => q2.1 == q.1))) ++ h))
      else p))

/-- Redis `DEL key`: removes the key; deleting an absent key succeeds. -/
def redisDelete (rs : RedisStore) (k : String) : RedisStore :=
  rs.filter (fun p => !(p.1 == k))

/-- The `RedisEmployee.create` classmethod (redis_adapter.py lines 16-43):
it invokes `diffsync.redis.set(username=..., company=..., job=..., ...)`;
the redis-py client's `set` takes `(name, value, ...)` and accepts none of
those keyword arguments, so the call raises `TypeError` before any command
reaches the server. -/
def redisEmployeeCreate (_rs : RedisStore) (_ids _attrs : Hash) :
    Except PyErr RedisStore :=
  .error .typeError

/-- The `RedisEmployee.update` method (redis_adapter.py lines 45-61):
`redis.hset(attrs["username"], ..., attrs)`.  `attrs` is the payload of
changed attributes, so the lookup `attrs["username"]` raises `KeyError`
whenever the payload has no `username` field (identifiers are never part
of an update payload). -/
def redisEmployeeUpdate (rs : RedisStore) (attrs : Hash) :
    Except PyErr RedisStore :=
  match hashGet attrs "username" with
  | none => .error (.keyError "username")
  | some u => redisHset rs u attrs

/-- The `RedisEmployee.delete` method (redis_adapter.py lines 63-73):
`redis.delete(self.username)`. -/
def redisEmployeeDelete (rs : RedisStore) (username : String) :
    Except PyErr RedisStore :=
  .ok (redisDelete rs username)

/-- One entry of a Delta tree, as handed to the sync executor: a create
with identifier and attribute payloads, an update with its changed
attributes, or a delete of an identifier. -/
inductive DeltaEntry where
  | createE (ids : Hash) (attrs : Hash)
  | updateE (key : String) (attrs : Hash)
  | deleteE (key : String)
deriving DecidableEq, Repr

/-- Application of one Delta entry through the `RedisEmployee` CRUD
methods. -/
def applyEntry (rs : RedisStore) : DeltaEntry → Except PyErr RedisStore
  | .createE ids attrs => redisEmployeeCreate rs ids attrs
  | .updateE _k attrs => redisEmployeeUpdate rs attrs
  | .deleteE k => redisEmployeeDelete rs k

/-- Per-entry outcome of a sync action, per spec section 4.3. -/
inductive Outcome where
  | applied
  | failed (err : PyErr)
  | skipped (why : String)
deriving DecidableEq, Repr

/-- An outcome is `Applied` or `Failed(reason)` (not `Skipped`). -/
def Outcome.isAppliedOrFailed : Outcome → Bool
  | .skipped _ => false
  | _ => true

/-- Modelled from the spec: the Sync Executor of the `diffsync` library
(not part of this repository) — each create/update/delete attempt yields
`Applied` or `Failed(reason)`; a failed entry is recorded and execution
continues with the sibling entries at the same tree level (spec section
4.3).  The `employee` type has no children, so the Delta is a flat list
and no entry is skipped for a failed parent. -/
def syncRun (rs : RedisStore) : List DeltaEntry → RedisStore × List Outcome
  | [] => (rs, [])
  | e :: rest =>
    match applyEntry rs e with
    | .ok rs2 =>
      let r := syncRun rs2 rest
      (r.1, .applied :: r.2)
    | .error err =>
      let r := syncRun rs rest
      (r.1, .failed err :: r.2)

/-- An operation sent over the Redis connection. -/
inductive ROp where
  | keysOp
  | hgetallOp (k : String)
  | mgetOp (ks : List String)
  | hsetOp (k : String)
  | delOp (k : String)
deriving DecidableEq, Repr

/-- Whether a Redis operation mutates the store. -/
def ROp.isWrite : ROp → Bool
  | .hsetOp _ => true
  | .delOp _ => true
  | _ => false

/-- The loop of `RedisEmployee.get_all` (redis_adapter.py lines 92-98)
over the keys returned by `redis.keys('*')`, paired with the Redis
operations it issues: one `HGETALL` per key until a conversion fails. -/
def getAllLoop (rs : RedisStore) :
    List String → Except PyErr (List Employee) × List ROp
  | [] => (.ok [], [])
  | k :: rest =>
    match hgetall rs k with
    | .error e => (.error e, [.hgetallOp k])
    | .ok h =>
      match convertFrom h with
      | .error e => (.error e, [.hgetallOp k])
      | .ok emp =>
        let r := getAllLoop rs rest
        (r.1.map (fun tail => emp :: tail), .hgetallOp k :: r.2)

/-- `RedisEmployee.get_all` with its Redis operation trace: `KEYS *`
followed by one `HGETALL` per key. -/
def redisGetAllTrace (rs : RedisStore) :
    Except PyErr (List Employee) × List ROp :=
  let r := getAllLoop rs (rs.map (fun p => p.1))
  (r.1, .keysOp :: r.2)

/-- The diff computation of `main.py` with `--redis` (line 34,
`remote.diff_from(local)`): the storeless `RedisAdapter` side is obtained
through `RedisEmployee.get_all` at diff time, and the result is diffed
against the local index; the second component is the trace of Redis
operations issued while the diff runs. -/
def diffFromRedisTrace (localStore : Store) (rs : RedisStore) :
    Except PyErr Delta × List ROp :=
  let r := redisGetAllTrace rs
  (match r.1 with
   | .error e => .error e
   | .ok emps =>
     .ok (diffStores localStore (emps.map (fun e => (e.username, e)))),
   r.2)

/-- The parsed command line of `main.py` (lines 38-44): a `--verbosity`
count and a `--redis` switch. -/
structure Args where
  verbosity : Nat
  redis : Bool
deriving DecidableEq, Repr

/-- The observable steps of `main` (main.py lines 15-35). -/
inductive MainAct where
  | fetchLocalData
  | loadLocalAdapter
  | loadRedisAdapter
  | diffFrom
  | printSummary
  | syncTo
deriving DecidableEq, Repr

/-- The option strings accepted by the argument parser of `main.py`
(lines 38-44). -/
def mainParserFlags : List String := ["--verbosity", "-v", "--redis"]

/-- The sequence of steps `main` performs (main.py lines 15-35): fetch the
local data, load the local adapter, load the remote adapter (Redis when
`--redis` is given, a second local adapter otherwise), diff, and print the
summary. -/
def mainTrace (a : Args) : List MainAct :=
  [MainAct.fetchLocalData, MainAct.loadLocalAdapter] ++
  (if a.redis then [MainAct.loadRedisAdapter] else [MainAct.loadLocalAdapter]) ++
  [MainAct.diffFrom, MainAct.printSummary]

/-- The length of the longest prefix of the source that `loadAux` loads
successfully before its first failure (the whole list when no step
fails). -/
def goodPrefixLen (index : Nat) (s : Store) : List RawEmp → Nat
  | [] => 0
  | e :: rest =>
    match mkEmployee index e with
    | .error _ => 0
    | .ok emp =>
      match storeAdd s emp with
      | .error _ => 0
      | .ok s2 => goodPrefixLen (index + 1) s2 rest + 1

/-- A concrete well-formed employee used in concrete evaluations. -/
def aliceEmp : Employee :=
  { name := "Alice", company := "NewCo", job := "Engineer", ssn := "1",
    residence := "Here", username := "alice0", mail := "a@x" }

/-- The hash `populate_redis` would have stored for `aliceEmp`. -/
def aliceHash : Hash :=
  [("job", "Engineer"), ("company", "NewCo"), ("ssn", "1"),
   ("residence", "Here"), ("username", "alice0"), ("name", "Alice"),
   ("mail", "a@x")]

/-- A concrete Redis state holding one well-formed employee hash. -/
def exRedis : RedisStore := [("alice0", .hash aliceHash)]

/-- A concrete source mapping carrying every required field. -/
def goodRaw : RawEmp :=
  { name := some "Alice", company := some "NewCo", job := some "Engineer",
    ssn := some "1", residence := some "Here", username := some "alice",
    mail := some "a@x" }

/-- A concrete malformed source mapping: the `mail` field is absent. -/
def badRaw : RawEmp :=
  { name := some "Bob", company := some "OldCo", job := some "Clerk",
    ssn := some "2", residence := some "There", username := some "bob",
    mail := none }

/-- A well-formed source mapping with a chosen username. -/
def rawWithUser (u : String) : RawEmp :=
  { goodRaw with username := some u }

/-- The local index `LocalAdapter.load [goodRaw]` produces. -/
def exLocal : Store := [("alice0", aliceEmp)]

/-- A concrete update entry: the changed-attributes payload carries no
`username` field, exactly as the diff engine produces it. -/
def exUpd : DeltaEntry := .updateE "bob1" [("company", "NewCo")]

/-- The employee `aliceEmp` with a different stored username. -/
def empWithUser (u : String) : Employee := { aliceEmp with username := u }

/-- A source list whose usernames repeat and include the empty string. -/
def esRepeat : List RawEmp := [rawWithUser "a", rawWithUser "a", rawWithUser ""]

/-- The index `LocalAdapter.load esRepeat` produces. -/
def stRepeat : Store :=
  [("a0", empWithUser "a0"), ("a1", empWithUser "a1"), ("2", empWithUser "2")]

/-- A concrete two-record source list. -/
def es10 : List RawEmp := [goodRaw, rawWithUser "x"]

/-- The index `LocalAdapter.load es10` produces. -/
def st10 : Store := [("alice0", aliceEmp), ("x1", empWithUser "x1")]

/-- The Redis contents `populate_redis` writes for `es10`. -/
def rst10 : RedisStore :=
  [("alice0", .hash (redisHashOfRaw 0 goodRaw)),
   ("x1", .hash (redisHashOfRaw 1 (rawWithUser "x")))]

/-! ### Helper lemmas -/

/-- Filling digits into the accumulator never shortens it. -/
theorem toDigitsCore_length_le (b : Nat) :
    ∀ (f n : Nat) (ds : List Char), ds.length ≤ (Nat.toDigitsCore b f n ds).length := by
  intro f
  induction f with
  | zero => intro n ds; simp [Nat.toDigitsCore]
  | succ f ih =>
    intro n ds
    simp only [Nat.toDigitsCore]
    split
    · simp
    · exact le_trans (by simp) (ih (n / b) (Nat.digitChar (n % b) :: ds))

/-- The decimal representation of a natural number is never empty. -/
theorem repr_length_pos (n : Nat) : 0 < (Nat.repr n).length := by
  show 0 < (Nat.toDigits 10 n).asString.length
  have hlen : (Nat.toDigits 10 n).asString.length = (Nat.toDigits 10 n).length := rfl
  rw [hlen]
  show 0 < (Nat.toDigitsCore 10 (n + 1) n []).length
  simp only [Nat.toDigitsCore]
  split
  · simp
  · exact lt_of_lt_of_le (by simp)
      (toDigitsCore_length_le 10 n (n / 10) [Nat.digitChar (n % 10)])

/-- Appending a decimal index to a string changes it. -/
theorem append_repr_ne (u : String) (i : Nat) : u ++ Nat.repr i ≠ u := by
  intro h
  have h2 := congrArg String.length h
  rw [String.length_append] at h2
  have h3 := repr_length_pos i
  omega

/-- Any member's key satisfies the duplicate test of `storeAdd`. -/
theorem mem_any_key {s : Store} {p : String × Employee} (hp : p ∈ s) :
    s.any (fun q => q.1 == p.1) = true :=
  List.any_eq_true.2 ⟨p, hp, by simp⟩

/-- On an index with no duplicate keys, `storeGet` returns exactly the
member stored under the key. -/
theorem storeGet_mem :
    ∀ (s : Store), (storeKeys s).Nodup → ∀ p ∈ s, storeGet s p.1 = some p.2 := by
  intro s
  induction s with
  | nil => intro _ p hp; cases hp
  | cons q rest ih =>
    intro hnd p hp
    simp only [storeKeys, List.map_cons, List.nodup_cons] at hnd
    rcases List.mem_cons.1 hp with rfl | hmem
    · simp [storeGet, List.find?]
    · have hne : (q.1 == p.1) = false := by
        refine beq_eq_false_iff_ne.2 ?_
        intro heq
        exact hnd.1 (heq ▸ List.mem_map.2 ⟨p, hmem, rfl⟩)
      have hrec := ih hnd.2 p hmem
      simpa [storeGet, List.find?, hne] using hrec

/-- Comparing an employee's attributes with itself yields no change. -/
theorem attrDiffs_self (e : Employee) : attrDiffs e e = [] := by
  simp [attrDiffs, attrsOf]

/-- Diffing a duplicate-free index against itself yields the empty
Delta. -/
theorem diffStores_self {s : Store} (hnd : (storeKeys s).Nodup) :
    diffStores s s = { creates := [], updates := [], deletes := [] } := by
  unfold diffStores
  simp only [Delta.mk.injEq]
  refine ⟨?_, ?_, ?_⟩
  · rw [List.map_eq_nil_iff, List.filter_eq_nil_iff]
    intro p hp
    simp [mem_any_key hp]
  · rw [List.filterMap_eq_nil_iff]
    intro p hp
    rw [storeGet_mem s hnd p hp]
    simp [attrDiffs_self]
  · rw [List.map_eq_nil_iff, List.filter_eq_nil_iff]
    intro p hp
    simp [mem_any_key hp]

/-- A successful `storeAdd` appends the new key at the end. -/
theorem storeAdd_keys {s s2 : Store} {e : Employee}
    (h : storeAdd s e = .ok s2) :
    storeKeys s2 = storeKeys s ++ [e.username] := by
  unfold storeAdd at h
  split at h
  · simp at h
  · cases h
    simp [storeKeys]

/-- A successful `storeAdd` only accepts a fresh key. -/
theorem storeAdd_fresh {s s2 : Store} {e : Employee}
    (h : storeAdd s e = .ok s2) :
    e.username ∉ storeKeys s := by
  unfold storeAdd at h
  split at h
  · simp at h
  · next hcond =>
    intro hmem
    apply hcond
    rcases List.mem_map.1 hmem with ⟨p, hp, hkey⟩
    exact List.any_eq_true.2 ⟨p, hp, by simp [hkey]⟩

/-- A successful `storeAdd` preserves freedom from duplicate keys. -/
theorem storeAdd_nodup {s s2 : Store} {e : Employee}
    (h : storeAdd s e = .ok s2) (hnd : (storeKeys s).Nodup) :
    (storeKeys s2).Nodup := by
  rw [storeAdd_keys h]
  rw [List.nodup_append]
  refine ⟨hnd, by simp, ?_⟩
  intro a ha hb
  rw [List.mem_singleton] at hb
  exact storeAdd_fresh h (hb ▸ ha)

/-- A successful load preserves freedom from duplicate keys. -/
theorem loadAux_nodup :
    ∀ (es : List RawEmp) (index : Nat) (s st : Store),
      (storeKeys s).Nodup → loadAux index s es = (st, none) →
      (storeKeys st).Nodup := by
  intro es
  induction es with
  | nil =>
    intro index s st hnd heq
    simp only [loadAux] at heq
    cases heq
    exact hnd
  | cons e rest ih =>
    intro index s st hnd heq
    simp only [loadAux] at heq
    cases hm : mkEmployee index e with
    | error err => simp only [hm] at heq; simp at heq
    | ok emp =>
      simp only [hm] at heq
      cases ha : storeAdd s emp with
      | error err => simp only [ha] at heq; simp at heq
      | ok s2 =>
        simp only [ha] at heq
        exact ih (index + 1) s2 st (storeAdd_nodup ha hnd) heq

/-- A successful `mkEmployee` stores the source username with the decimal
position appended. -/
theorem mkEmployee_username {index : Nat} {e : RawEmp} {emp : Employee}
    (h : mkEmployee index e = .ok emp) :
    emp.username = (e.username.getD "") ++ Nat.repr index := by
  unfold mkEmployee at h
  repeat' split at h
  all_goals simp_all
  rw [← h]

/-- On success, the keys of the loaded index are the source usernames with
their positions appended, in order. -/
theorem loadAux_keys :
    ∀ (es : List RawEmp) (index : Nat) (s st : Store),
      loadAux index s es = (st, none) →
      storeKeys st = storeKeys s ++
        (es.enumFrom index).map
          (fun p => (p.2.username.getD "") ++ Nat.repr p.1) := by
  intro es
  induction es with
  | nil =>
    intro index s st heq
    simp only [loadAux] at heq
    cases heq
    simp
  | cons e rest ih =>
    intro index s st heq
    simp only [loadAux] at heq
    cases hm : mkEmployee index e with
    | error err => simp only [hm] at heq; simp at heq
    | ok emp =>
      simp only [hm] at heq
      cases ha : storeAdd s emp with
      | error err => simp only [ha] at heq; simp at heq
      | ok s2 =>
        simp only [ha] at heq
        rw [ih (index + 1) s2 st heq, storeAdd_keys ha,
          mkEmployee_username hm, List.enumFrom_cons]
        simp

/-- On success, the keys written by `populate_redis` are the source
usernames with their positions appended, in order. -/
theorem populateRedisAux_keys :
    ∀ (es : List RawEmp) (index : Nat) (rs rst : RedisStore),
      populateRedisAux index rs es = .ok rst →
      rst.map (fun p => p.1) = rs.map (fun p => p.1) ++
        (es.enumFrom index).map
          (fun p => (p.2.username.getD "") ++ Nat.repr p.1) := by
  intro es
  induction es with
  | nil =>
    intro index rs rst heq
    simp only [populateRedisAux] at heq
    cases heq
    simp
  | cons e rest ih =>
    intro index rs rst heq
    simp only [populateRedisAux] at heq
    cases hu : e.username with
    | none => simp only [hu] at heq; simp at heq
    | some u =>
      simp only [hu] at heq
      rw [ih (index + 1) _ rst heq, List.enumFrom_cons]
      simp [hu]

/-- A failing load stops at the first bad record: the index it leaves
behind is exactly the index a successful load of the good prefix would
have produced. -/
theorem loadAux_partial :
    ∀ (es : List RawEmp) (index : Nat) (s : Store),
      (loadAux index s es).2.isSome = true →
      goodPrefixLen index s es < es.length ∧
      loadAux index s (es.take (goodPrefixLen index s es)) =
        ((loadAux index s es).1, none) := by
  intro es
  induction es with
  | nil =>
    intro index s h
    simp [loadAux] at h
  | cons e rest ih =>
    intro index s h
    cases hm : mkEmployee index e with
    | error err =>
      refine ⟨?_, ?_⟩
      · simp [goodPrefixLen, hm]
      · simp [goodPrefixLen, hm, loadAux]
    | ok emp =>
      cases ha : storeAdd s emp with
      | error err =>
        refine ⟨?_, ?_⟩
        · simp [goodPrefixLen, hm, ha]
        · simp [goodPrefixLen, hm, ha, loadAux]
      | ok s2 =>
        have hrest : (loadAux (index + 1) s2 rest).2.isSome = true := by
          simpa [loadAux, hm, ha] using h
        have ihr := ih (index + 1) s2 hrest
        refine ⟨?_, ?_⟩
        · simp only [goodPrefixLen, hm, ha, List.length_cons]
          omega
        · simp only [goodPrefixLen, hm, ha, List.take_succ_cons, loadAux]
          exact ihr.2

/-- Every Redis operation issued by the `get_all` loop is a read. -/
theorem getAllLoop_reads (rs : RedisStore) :
    ∀ ks : List String,
      ((getAllLoop rs ks).2.all (fun op => !op.isWrite)) = true := by
  intro ks
  induction ks with
  | nil => rfl
  | cons k rest ih =>
    simp only [getAllLoop]
    cases hh : hgetall rs k with
    | error e => simp [hh, ROp.isWrite]
    | ok h2 =>
      cases hc : convertFrom h2 with
      | error e => simp [hh, hc, ROp.isWrite]
      | ok emp =>
        simp only [hh, hc]
        simpa [ROp.isWrite] using ih

/-- The sync executor records exactly an `Applied` or `Failed` outcome for
every entry, never a skip, whatever the target state. -/
theorem syncRun_no_skip :
    ∀ (es : List DeltaEntry) (rs : RedisStore),
      ((syncRun rs es).2.all Outcome.isAppliedOrFailed) = true := by
  intro es
  induction es with
  | nil => intro rs; rfl
  | cons e rest ih =>
    intro rs
    simp only [syncRun]
    cases ha : applyEntry rs e with
    | ok rs2 => simp [Outcome.isAppliedOrFailed, ih rs2]
    | error err => simp [Outcome.isAppliedOrFailed, ih rs]

/-! ### Claim theorems -/

/-- Claim C1: for every dataset loaded identically into two adapters (as
`main.py` does without `--redis`, loading both `LocalAdapter`s from the
same employee list), diffing one against the other produces an empty Delta
for the `employee` type, and the printed summary reports zero creates,
updates and deletes. -/
theorem c1_identical_loads_empty_diff (es : List RawEmp) (st : Store)
    (h : localLoad es = (st, none)) :
    diffStores st st = { creates := [], updates := [], deletes := [] } ∧
    summaryCounts (diffStores st st) = (0, 0, 0) := by
  have hnd := loadAux_nodup es 0 [] st (by simp [storeKeys]) h
  have hd := diffStores_self hnd
  exact ⟨hd, by rw [hd]; rfl⟩

/-- Witness for C1 at a concrete one-record dataset. -/
theorem c1_witness :
    localLoad [goodRaw] = (exLocal, none) ∧
    diffStores exLocal exLocal = { creates := [], updates := [], deletes := [] } ∧
    summaryCounts (diffStores exLocal exLocal) = (0, 0, 0) :=
  ⟨by decide, (c1_identical_loads_empty_diff [goodRaw] exLocal (by decide)).1,
   (c1_identical_loads_empty_diff [goodRaw] exLocal (by decide)).2⟩

/-- Claim C2 counterexample: with the storeless Redis adapter (its `load`
only opens the connection), the diff computation of `main.py --redis`
issues Redis operations — `KEYS *` followed by an `HGETALL` — so it is
false that no read or write against the external store happens during
diff computation. -/
theorem c2_counterexample :
    (diffFromRedisTrace exLocal exRedis).2 =
      [ROp.keysOp, ROp.hgetallOp "alice0"] ∧
    ((diffFromRedisTrace exLocal exRedis).2.isEmpty = false) := by
  decide

/-- Claim C2 amended: the diff computation over the Redis adapter issues
only read operations against Redis (`KEYS` and `HGETALL`), never a write;
writes happen only in the create/update/delete methods the sync path
uses. -/
theorem c2_amended_diff_issues_no_writes (ls : Store) (rs : RedisStore) :
    ((diffFromRedisTrace ls rs).2.all (fun op => !op.isWrite)) = true := by
  simp only [diffFromRedisTrace, redisGetAllTrace, List.all_cons,
    Bool.and_eq_true]
  exact ⟨rfl, getAllLoop_reads rs _⟩

/-- Claim C3 counterexample: loading a source whose second record lacks
the required `mail` field fails, yet the record preceding the malformed
one is present in the index after the failed load — the prior (empty)
index is not left untouched. -/
theorem c3_counterexample :
    ((localLoad [goodRaw, badRaw]).2.isSome = true) ∧
    ((storeKeys (localLoad [goodRaw, badRaw]).1).contains "alice0" = true) := by
  decide

/-- Claim C3 amended: `load` fails with a `KeyError` when a record misses
a required field, but the failed load is not rolled back — the index it
leaves behind equals the result of successfully loading the good prefix
preceding the failure. -/
theorem c3_amended_partial_load (index : Nat) (s : Store) (es : List RawEmp)
    (h : (loadAux index s es).2.isSome = true) :
    goodPrefixLen index s es < es.length ∧
    loadAux index s (es.take (goodPrefixLen index s es)) =
      ((loadAux index s es).1, none) :=
  loadAux_partial es index s h

/-- Witness for C3 amended at the concrete two-record source. -/
theorem c3_amended_witness :
    goodPrefixLen 0 [] [goodRaw, badRaw] < [goodRaw, badRaw].length ∧
    loadAux 0 [] ([goodRaw, badRaw].take (goodPrefixLen 0 [] [goodRaw, badRaw])) =
      ((loadAux 0 [] [goodRaw, badRaw]).1, none) :=
  c3_amended_partial_load 0 [] [goodRaw, badRaw] (by decide)

/-- Claim C4: after any successful load the identifier keys of the index
are unique — no two loaded records share a key. -/
theorem c4_unique_keys_after_load (es : List RawEmp) (st : Store)
    (h : localLoad es = (st, none)) :
    (storeKeys st).Nodup :=
  loadAux_nodup es 0 [] st (by simp [storeKeys]) h

/-- Witness for C4 on a source list with repeated and empty usernames. -/
theorem c4_witness :
    localLoad esRepeat = (stRepeat, none) ∧ (storeKeys stRepeat).Nodup :=
  ⟨by decide, c4_unique_keys_after_load esRepeat stRepeat (by decide)⟩

/-- Claim C5: every sync entry yields an Applied or Failed outcome, and a
failing entry (for example an update raising inside the target adapter)
is recorded as Failed while the sibling entries still run exactly as they
would from the unchanged state. -/
theorem c5_failure_containment (rs : RedisStore) (e : DeltaEntry)
    (rest : List DeltaEntry) (err : PyErr)
    (h : applyEntry rs e = .error err) :
    (syncRun rs (e :: rest)).2 =
      Outcome.failed err :: (syncRun rs rest).2 ∧
    ((syncRun rs (e :: rest)).2.all Outcome.isAppliedOrFailed) = true := by
  refine ⟨?_, syncRun_no_skip (e :: rest) rs⟩
  simp only [syncRun, h]

/-- Witness for C5: the update entry raises `KeyError` on `username`
(redis_adapter.py line 59) and the sibling delete still applies. -/
theorem c5_witness :
    (syncRun exRedis [exUpd, DeltaEntry.deleteE "alice0"]).2 =
      Outcome.failed (PyErr.keyError "username") ::
        (syncRun exRedis [DeltaEntry.deleteE "alice0"]).2 ∧
    ((syncRun exRedis [exUpd, DeltaEntry.deleteE "alice0"]).2.all
      Outcome.isAppliedOrFailed) = true :=
  c5_failure_containment exRedis exUpd [DeltaEntry.deleteE "alice0"]
    (PyErr.keyError "username") rfl

/-- Claim C6 (code bug): for an identifier absent from the store, the
adapter `get` does not signal NotFound — `HGETALL` returns the empty hash
and `convert_from` raises `KeyError` on the `name` field, contradicting
the `ObjectNotFound` contract documented on `RedisAdapter.get`. -/
theorem c6_get_absent_raises_keyerror :
    redisLookup exRedis "ghost" = none ∧
    redisEmployeeGet exRedis "ghost" = .error (.keyError "name") :=
  ⟨rfl, rfl⟩

/-- Claim C7 counterexample: the identifier of `aliceEmp` is already
indexed, yet `RedisAdapter.add` succeeds without `AlreadyExists`,
silently accepting the duplicate. -/
theorem c7_counterexample :
    (exLocal.any (fun p => p.1 == aliceEmp.username)) = true ∧
    redisAdapterAdd exLocal aliceEmp = .ok exLocal :=
  ⟨by decide, rfl⟩

/-- Claim C7 amended: `RedisAdapter.add` is a no-op — it succeeds on
every record, duplicate identifier or not, and leaves the state
unchanged. -/
theorem c7_amended_add_noop (s : Store) (e : Employee) :
    redisAdapterAdd s e = .ok s := rfl

/-- Claim C8 (code bug): a batched lookup with an absent identifier does
not fail with NotFound naming the missing ids — `MGET` yields `nil`
entries (the stored values are hashes, not strings) which are fed to
`hgetall`, raising the client's `DataError`, contrary to the
`ObjectNotFound` contract documented on `RedisAdapter.get_by_uids`. -/
theorem c8_get_by_uids_dataerror :
    redisLookup exRedis "ghost" = none ∧
    redisGetByUids exRedis ["alice0", "ghost"] = .error .dataError :=
  ⟨rfl, rfl⟩

/-- Claim C9 counterexample: the CLI parser accepts no sync flag and
neither branch of `main` (with or without `--redis`) reaches a sync
step. -/
theorem c9_counterexample :
    (mainParserFlags.contains "--sync") = false ∧
    ((mainTrace (Args.mk 0 false)).contains MainAct.syncTo) = false ∧
    ((mainTrace (Args.mk 0 true)).contains MainAct.syncTo) = false := by
  decide

/-- Claim C9 amended: every invocation of `main` is a diff-only run — it
never invokes the Sync Executor, always diffs and prints the summary, and
the parser offers no sync flag. -/
theorem c9_amended_diff_only (a : Args) :
    ((mainTrace a).contains MainAct.syncTo) = false ∧
    ((mainTrace a).contains MainAct.diffFrom) = true ∧
    ((mainTrace a).contains MainAct.printSummary) = true ∧
    (mainParserFlags.contains "--sync") = false := by
  obtain ⟨v, r⟩ := a
  cases r <;> exact ⟨rfl, rfl, rfl, rfl⟩

/-- Claim C10: on success, `LocalAdapter.load` stores the record at
position `i` under the source username with the decimal representation of
`i` appended, `populate_redis` derives its Redis keys with the same
transformation, and no position's stored key equals that position's
unmodified username. -/
theorem c10_suffixed_keys (es : List RawEmp) (st : Store) (rst : RedisStore)
    (hl : localLoad es = (st, none))
    (hr : populateRedisStore es = .ok rst) :
    storeKeys st = suffixedKeys es ∧
    rst.map (fun p => p.1) = suffixedKeys es ∧
    (es.enum.all (fun p =>
      !((p.2.username.getD "") ++ Nat.repr p.1 == p.2.username.getD ""))) = true := by
  refine ⟨?_, ?_, ?_⟩
  · have hk := loadAux_keys es 0 [] st hl
    simpa [suffixedKeys, List.enum, storeKeys] using hk
  · have hk := populateRedisAux_keys es 0 [] rst hr
    simpa [suffixedKeys, List.enum] using hk
  · rw [List.all_eq_true]
    intro p hp
    simp only [Bool.not_eq_true']
    exact beq_eq_false_iff_ne.2 (append_repr_ne _ _)

/-- Witness for C10 at a concrete two-record source. -/
theorem c10_witness :
    storeKeys st10 = suffixedKeys es10 ∧
    rst10.map (fun p => p.1) = suffixedKeys es10 ∧
    (es10.enum.all (fun p =>
      !((p.2.username.getD "") ++ Nat.repr p.1 == p.2.username.getD ""))) = true :=
  c10_suffixed_keys es10 st10 rst10 (by decide) rfl

end DiffsyncMock
